import Mathlib

/-
Verification of the dialogue parser and clip assembler of
scripts/generate_audio.py.

Strings are modelled as lists of Unicode scalar values (Lean Char), which
matches Python str, whose characters are Unicode code points.  Each Python
helper of the script is translated into a total Lean function below; the
regular expressions used by the script are small enough that each one is
translated into a dedicated scanning function whose semantics is spelled
out next to it.

A note on the speaker marker glyphs: the source file stores the emoji
markers through a MacRoman transcoding of their UTF-8 bytes (for example
the microphone emoji U+1F3A4 appears in the file as the four code points
U+F8FF, U+00FC, U+00E9, U+00A7).  The program was written against the
emoji themselves (the specification and the documentation render them as
such), and the transcoding is a one-to-one recoding of the text under
which the parser behaves identically, so the model uses the emoji code
points U+1F3A4, U+1F468 and U+1F9D1 directly.
-/

/-- Convert a Lean string literal to the character-list representation. -/
def toL (s : String) : List Char := s.toList

/-- The characters recognised as whitespace by Python str.strip and by the
regex class backslash-s in Unicode mode: the ASCII whitespace characters
together with the Unicode space and line separators. -/
def isPySpace (c : Char) : Bool :=
  let n := c.toNat
  n = 0x20 || (0x09 ≤ n && n ≤ 0x0D) ||
  (0x1C ≤ n && n ≤ 0x1F) ||
  n = 0x85 || n = 0xA0 || n = 0x1680 ||
  (0x2000 ≤ n && n ≤ 0x200A) ||
  n = 0x2028 || n = 0x2029 || n = 0x202F || n = 0x205F || n = 0x3000

/-- Python str.strip with no argument: remove leading and trailing
whitespace characters. -/
def pyStrip (s : List Char) : List Char :=
  ((s.dropWhile isPySpace).reverse.dropWhile isPySpace).reverse

/-- The line-boundary characters of Python str.splitlines. -/
def isLineBreakChar (c : Char) : Bool :=
  let n := c.toNat
  n = 0x0A || n = 0x0D || n = 0x0B || n = 0x0C ||
  (0x1C ≤ n && n ≤ 0x1E) ||
  n = 0x85 || n = 0x2028 || n = 0x2029

/-- Worker for pySplitlines; the accumulator holds the current line in
reverse order. -/
def pySplitlinesAux (acc : List Char) : List Char → List (List Char)
  | [] => if acc = [] then [] else [acc.reverse]
  | '\r' :: '\n' :: rest => acc.reverse :: pySplitlinesAux [] rest
  | c :: rest =>
      if isLineBreakChar c then acc.reverse :: pySplitlinesAux [] rest
      else pySplitlinesAux (c :: acc) rest

/-- Python str.splitlines: split at the Unicode line boundaries, treating
a carriage return followed by a newline as a single boundary, with no
empty final line for a trailing boundary. -/
def pySplitlines (s : List Char) : List (List Char) :=
  pySplitlinesAux [] s

/-- Substring test, the semantics of the Python expression needle in hay
for strings. -/
def containsSub (needle : List Char) : List Char → Bool
  | [] => needle.isEmpty
  | c :: rest => needle.isPrefixOf (c :: rest) || containsSub needle rest

/-- The backtick character (code point 0x60). -/
def btick : Char := Char.ofNat 96

/-- The microphone emoji U+1F3A4, the interviewer marker glyph. -/
def micChar : Char := Char.ofNat 0x1F3A4

/-- The man emoji U+1F468, the first candidate marker glyph (the one the
prefix-stripping regex is anchored on). -/
def manChar : Char := Char.ofNat 0x1F468

/-- The adult emoji U+1F9D1, the second candidate marker glyph. -/
def adultChar : Char := Char.ofNat 0x1F9D1

/-- The zero-width joiner U+200D, used between man and laptop in the
composed technologist emoji. -/
def zwjChar : Char := Char.ofNat 0x200D

/-- The laptop emoji U+1F4BB. -/
def laptopChar : Char := Char.ofNat 0x1F4BB

/-
Translations of the individual regular-expression substitutions of
clean_text (generate_audio.py lines 134-145).  Each substitution scans
the string from the left; at each position it either applies the leftmost
match beginning there and continues after the match (the replaced text is
not rescanned, as with re.sub), or emits the character and moves one
position right.  The scans are driven by a fuel argument; the top-level
wrappers pass the length of the string, which is an upper bound on the
number of scan steps because every step consumes at least one character.
-/

/-- Find the smallest non-empty newline-free prefix of the input that is
followed by the closing delimiter d; return that prefix and the text
after the delimiter.  This is the lazy group of a pattern of the shape
d (.+?) d, where the dot does not match a newline. -/
def lazyInner (d : List Char) : List Char → Option (List Char × List Char)
  | [] => none
  | c :: rest =>
      if c = '\n' then none
      else if d.isPrefixOf rest then some ([c], rest.drop d.length)
      else
        match lazyInner d rest with
        | some (inner, r) => some (c :: inner, r)
        | none => none

/-- One fuelled scan step of the substitution d (.+?) d to the inner
group. -/
def subDelimAux (d : List Char) : Nat → List Char → List Char
  | 0, s => s
  | _ + 1, [] => []
  | fuel + 1, c :: rest =>
      if d.isPrefixOf (c :: rest) then
        match lazyInner d ((c :: rest).drop d.length) with
        | some (inner, r) => inner ++ subDelimAux d fuel r
        | none => c :: subDelimAux d fuel rest
      else c :: subDelimAux d fuel rest

/-- re.sub of the pattern d (.+?) d (lazy, dot excludes newline) by the
inner group, for a literal delimiter d. -/
def subDelim (d s : List Char) : List Char :=
  subDelimAux d s.length s

/-- One fuelled scan step of the inline-code substitution: a backtick, one
or more non-backtick characters, a backtick, replaced by the inner text. -/
def subCodeAux : Nat → List Char → List Char
  | 0, s => s
  | _ + 1, [] => []
  | fuel + 1, c :: rest =>
      if c = btick then
        let inner := rest.takeWhile (fun d => d ≠ btick)
        if inner ≠ [] && [btick].isPrefixOf (rest.drop inner.length) then
          inner ++ subCodeAux fuel (rest.drop (inner.length + 1))
        else c :: subCodeAux fuel rest
      else c :: subCodeAux fuel rest

/-- re.sub of the inline-code pattern by its inner group. -/
def subCode (s : List Char) : List Char :=
  subCodeAux s.length s

/-- One fuelled scan step of the markdown-link substitution: a bracketed
non-empty label followed immediately by a parenthesised non-empty target,
replaced by the label. -/
def subLinkAux : Nat → List Char → List Char
  | 0, s => s
  | _ + 1, [] => []
  | fuel + 1, c :: rest =>
      if c = '[' then
        let label := rest.takeWhile (fun d => d ≠ ']')
        if label ≠ [] then
          match rest.drop label.length with
          | ']' :: '(' :: r2 =>
            let url := r2.takeWhile (fun d => d ≠ ')')
            if url ≠ [] then
              match r2.drop url.length with
              | ')' :: r3 => label ++ subLinkAux fuel r3
              | _ => c :: subLinkAux fuel rest
            else c :: subLinkAux fuel rest
          | _ => c :: subLinkAux fuel rest
        else c :: subLinkAux fuel rest
      else c :: subLinkAux fuel rest

/-- re.sub of the markdown-link pattern by its label group. -/
def subLink (s : List Char) : List Char :=
  subLinkAux s.length s

/-- Worker for collapseWs: the flag records whether the previous character
belonged to a whitespace run already replaced by one space. -/
def collapseWsAux (prevWs : Bool) : List Char → List Char
  | [] => []
  | c :: rest =>
      if isPySpace c then
        if prevWs then collapseWsAux true rest
        else ' ' :: collapseWsAux true rest
      else c :: collapseWsAux false rest

/-- re.sub of one-or-more whitespace characters by a single space. -/
def collapseWs (s : List Char) : List Char :=
  collapseWsAux false s

/-- Python str.replace for a single-character pattern and replacement. -/
def replaceChar (a b : Char) (s : List Char) : List Char :=
  s.map (fun c => if c = a then b else c)

/-- clean_text (generate_audio.py lines 134-145): strip markdown
formatting, in this order: triple emphasis, double emphasis, single
emphasis, inline code spans, links, underscore emphasis, typographic
quotes to ASCII quotes, whitespace runs to single spaces, final strip. -/
def clean_text (text : List Char) : List Char :=
  let t1 := subDelim (toL "***") text
  let t2 := subDelim (toL "**") t1
  let t3 := subDelim (toL "*") t2
  let t4 := subCode t3
  let t5 := subLink t4
  let t6 := subDelim (toL "_") t5
  let t7 := replaceChar (Char.ofNat 0x201C) '"' t6
  let t8 := replaceChar (Char.ofNat 0x201D) '"' t7
  let t9 := replaceChar (Char.ofNat 0x2018) (Char.ofNat 39) t8
  let t10 := replaceChar (Char.ofNat 0x2019) (Char.ofNat 39) t9
  pyStrip (collapseWs t10)

/-- True when the last character of the string is one of the five
sentence-ending punctuation characters tested by join_lines. -/
def endsPunct (s : List Char) : Bool :=
  match s.getLast? with
  | some c => c = '.' || c = '!' || c = '?' || c = ':' || c = ','
  | none => false

/-- join_lines (generate_audio.py lines 71-83): join accumulated lines,
starting from the empty string; an empty running result is replaced by
the line, a result ending in sentence punctuation receives a space and
the line, and any other result receives a period, a space and the line. -/
def join_lines (lines : List (List Char)) : List Char :=
  lines.foldl
    (fun result line =>
      if result = [] then line
      else if endsPunct result then result ++ ' ' :: line
      else result ++ '.' :: ' ' :: line)
    []

/-- strip_list_marker (generate_audio.py lines 85-87): remove a leading
bullet marker (dash, star or plus followed by whitespace) or a leading
numeric marker (digits, then a period or closing parenthesis, then
whitespace).  The digit class of the pattern is modelled by the ASCII
digits, the digits appearing in the documents the script processes. -/
def strip_list_marker (line : List Char) : List Char :=
  let ds := line.takeWhile Char.isDigit
  if ds ≠ [] then
    match line.drop ds.length with
    | c :: rest =>
        if (c = '.' || c = ')') && rest.takeWhile isPySpace ≠ [] then
          rest.dropWhile isPySpace
        else line
    | [] => line
  else
    match line with
    | c :: rest =>
        if (c = '-' || c = '*' || c = '+') && rest.takeWhile isPySpace ≠ [] then
          rest.dropWhile isPySpace
        else line
    | [] => line

/-
The speaker marker lines (generate_audio.py lines 113-124).  Each marker
line is rewritten by re.sub with a pattern of the shape  .* M tail  and
an empty replacement, where M is the marker glyph and tail the bolded
label segment.  The lines handed to these substitutions come from
splitlines and therefore contain no newline, so the leading greedy  .*
can span any prefix of the line: the match, when one exists, starts at
the beginning of the line and ends at the end of the rightmost position
where  M tail  matches (the greedy  .*  takes the rightmost such
position, and by its maximality no further match remains in the rest of
the line).  The functions interviewerTail and candidateTail decide
whether  M tail  matches at the head of a string and return the text
after the match; lastMatch picks the rightmost matching position.
-/

/-- Match of the interviewer pattern at the head of the string: the
microphone glyph, optional whitespace, the literal bold-open plus
Interviewer, any characters other than a colon, a colon, the bold-close,
optional whitespace.  Every quantified part of the pattern admits exactly
one viable extent, so the match is computed without backtracking: the
whitespace runs are maximal, and the colon-free run extends to the first
colon. -/
def interviewerTail (s : List Char) : Option (List Char) :=
  match s with
  | [] => none
  | c :: rest =>
      if c = micChar then
        let s1 := rest.dropWhile isPySpace
        if (toL "**Interviewer").isPrefixOf s1 then
          let s2 := s1.drop 13
          match s2.dropWhile (fun d => d ≠ ':') with
          | ':' :: s4 =>
              if (toL "**").isPrefixOf s4 then
                some ((s4.drop 2).dropWhile isPySpace)
              else none
          | _ => none
        else none
      else none

/-- Match of the candidate pattern at the head of the string: the man
glyph, a run of characters that are neither whitespace nor a star, 
optional whitespace, the bold-open, a non-empty colon-free run, a colon,
the bold-close, optional whitespace.  As with interviewerTail, each
quantified part admits exactly one viable extent.  Note that the pattern
is anchored on the man glyph only; the adult glyph does not start a
match. -/
def candidateTail (s : List Char) : Option (List Char) :=
  match s with
  | [] => none
  | c :: rest =>
      if c = manChar then
        let s1 := rest.dropWhile (fun d => !(isPySpace d) && d ≠ '*')
        let s2 := s1.dropWhile isPySpace
        if (toL "**").isPrefixOf s2 then
          let s3 := s2.drop 2
          let lbl := s3.takeWhile (fun d => d ≠ ':')
          if lbl ≠ [] then
            match s3.drop lbl.length with
            | ':' :: s4 =>
                if (toL "**").isPrefixOf s4 then
                  some ((s4.drop 2).dropWhile isPySpace)
                else none
            | _ => none
          else none
        else none
      else none

/-- Scan all suffix positions of the string and return the result of the
head matcher at the rightmost position where it succeeds. -/
def lastMatch (tm : List Char → Option (List Char)) : List Char → Option (List Char)
  | [] => tm []
  | c :: rest =>
      match lastMatch tm rest with
      | some r => some r
      | none => tm (c :: rest)

/-- The re.sub of generate_audio.py line 116: on a newline-free line,
remove everything up to the end of the rightmost interviewer label
segment, or leave the line unchanged when no such segment occurs. -/
def subInterviewerLabel (line : List Char) : List Char :=
  match lastMatch interviewerTail line with
  | some r => r
  | none => line

/-- The re.sub of generate_audio.py line 122: on a newline-free line,
remove everything up to the end of the rightmost candidate label segment
(anchored on the man glyph), or leave the line unchanged when no such
segment occurs. -/
def subCandidateLabel (line : List Char) : List Char :=
  match lastMatch candidateTail line with
  | some r => r
  | none => line

/-- The two speakers of the dialogue (the strings interviewer and
candidate in the script). -/
inductive Speaker
  | interviewer
  | candidate
deriving DecidableEq

/-- The transient parser state of parse_dialogue: the emitted segments,
the active speaker, the accumulated fragments of the current utterance,
and the fenced-code-block flag. -/
structure ParseState where
  segments : List (Speaker × List Char)
  current_speaker : Option Speaker
  current_lines : List (List Char)
  in_code_block : Bool
deriving DecidableEq

/-- The initial parser state. -/
def initState : ParseState :=
  { segments := [], current_speaker := none, current_lines := [], in_code_block := false }

/-- flush (generate_audio.py lines 89-96): when a speaker is active and
fragments were accumulated, join and normalize them and emit the
utterance when it is not whitespace-only; then clear the active speaker
and the fragment buffer. -/
def flush (st : ParseState) : ParseState :=
  match st.current_speaker with
  | some sp =>
      if st.current_lines ≠ [] then
        let text := clean_text (join_lines st.current_lines)
        if pyStrip text ≠ [] then
          { segments := st.segments ++ [(sp, text)], current_speaker := none,
            current_lines := [], in_code_block := st.in_code_block }
        else
          { st with current_speaker := none, current_lines := [] }
      else
        { st with current_speaker := none, current_lines := [] }
  | none => { st with current_speaker := none, current_lines := [] }

/-- A line whose stripped content starts with a triple backtick
(generate_audio.py line 99). -/
def fenceLine (line : List Char) : Bool :=
  (toL "```").isPrefixOf (pyStrip line)

/-- A line starting with a blockquote mark (line 104). -/
def quoteLine (line : List Char) : Bool :=
  (toL ">").isPrefixOf line

/-- A line whose stripped content starts with a table bar (line 107). -/
def tableLine (line : List Char) : Bool :=
  (toL "|").isPrefixOf (pyStrip line)

/-- A horizontal-rule line: the stripped content is three or more dashes
and nothing else (the regex match of line 108). -/
def hruleLine (line : List Char) : Bool :=
  decide (3 ≤ (pyStrip line).length) && (pyStrip line).all (fun c => c = '-')

/-- A heading line (line 110). -/
def headingLine (line : List Char) : Bool :=
  (toL "#").isPrefixOf line

/-- The interviewer marker condition of line 113: the line contains the
microphone glyph and the literal word Interviewer. -/
def interviewerTrigger (line : List Char) : Bool :=
  line.contains micChar && containsSub (toL "Interviewer") line

/-- The candidate marker condition of line 119: the line contains the man
glyph or the adult glyph, together with the literal word Candidate or the
phrase Staff Engineer. -/
def candidateTrigger (line : List Char) : Bool :=
  (line.contains manChar || line.contains adultChar) &&
  (containsSub (toL "Candidate") line || containsSub (toL "Staff Engineer") line)

/-- Processing of one line of the document: the classifier cascade of
generate_audio.py lines 98-128, in source order. -/
def processLine (st : ParseState) (line : List Char) : ParseState :=
  if fenceLine line then
    { st with in_code_block := !st.in_code_block }
  else if st.in_code_block then st
  else if quoteLine line then st
  else if tableLine line then st
  else if hruleLine line then st
  else if headingLine line then flush st
  else if interviewerTrigger line then
    let st1 := flush st
    let text := pyStrip (subInterviewerLabel line)
    { st1 with
      current_speaker := some Speaker.interviewer
      current_lines := if text ≠ [] then [text] else [] }
  else if candidateTrigger line then
    let st1 := flush st
    let text := pyStrip (subCandidateLabel line)
    { st1 with
      current_speaker := some Speaker.candidate
      current_lines := if text ≠ [] then [text] else [] }
  else if st.current_speaker.isSome then
    let stripped := strip_list_marker (pyStrip line)
    if stripped ≠ [] then { st with current_lines := st.current_lines ++ [stripped] }
    else st
  else st

/-- parse_dialogue (generate_audio.py lines 59-131): fold the line
processor over the lines of the document, flush the final utterance, and
return the emitted segments. -/
def parse_dialogue (md_text : List Char) : List (Speaker × List Char) :=
  (flush ((pySplitlines md_text).foldl processLine initState)).segments

/-
The clip assemblers.  An audio buffer is modelled as a list of samples
over an arbitrary sample type; a silence buffer is a replication of the
zero sample.  The decoding of encoded clips (soundfile, pydub) is outside
the model: the assemblers receive the clips as sample sequences.
-/

/-- The fixed Kokoro output sample rate (generate_audio.py line 49). -/
def KOKORO_SAMPLE_RATE : Nat := 24000

/-- The number of silence samples for a pause, int(rate times pause_ms
divided by 1000) at line 196.  Python computes a float division and
truncates; for the rates and pauses in scope the division is exact and
agrees with natural division. -/
def silenceSamples (rate pause_ms : Nat) : Nat :=
  rate * pause_ms / 1000

/-- A buffer of n copies of the zero sample (np.zeros at line 196). -/
def silenceBuffer {α : Type} (z : α) (n : Nat) : List α :=
  List.replicate n z

/-- np.concatenate on a list of one-dimensional arrays: the concatenation
of the arrays; numpy rejects an empty list of arrays (it raises
ValueError: need at least one array to concatenate), modelled by none. -/
def npConcatenate {α : Type} (arrays : List (List α)) : Option (List α) :=
  match arrays with
  | [] => none
  | _ :: _ => some arrays.flatten

/-- The interleaved clip list of the comprehension at line 197: for each
clip in order, the clip and then the silence buffer. -/
def kokoroClipList {α : Type} (clips : List (List α)) (silence : List α) : List (List α) :=
  (clips.map (fun clip => [clip, silence])).flatten

/-- The Kokoro combination step (line 197): np.concatenate of the
interleaved clip list. -/
def kokoroAssemble {α : Type} (clips : List (List α)) (silence : List α) : Option (List α) :=
  npConcatenate (kokoroClipList clips silence)

/-- The Kokoro combination stage including the guard at lines 191-193:
with no clips the script prints an error and exits without producing any
buffer, modelled by none. -/
def kokoroCombine {α : Type} (clips : List (List α)) (silence : List α) : Option (List α) :=
  match clips with
  | [] => none
  | _ :: _ => kokoroAssemble clips silence

/-- The ElevenLabs combination loop (lines 251-254): starting from an
empty segment, append each clip followed by the silence buffer. -/
def elevenlabsAssemble {α : Type} (clips : List (List α)) (silence : List α) : List α :=
  clips.foldl (fun combined clip => combined ++ (clip ++ silence)) []

/-
Shared auxiliary lemmas.
-/

/-- Stripping a string whose first character is not whitespace leaves
that character at the front. -/
theorem pyStrip_cons_of_not_space (c : Char) (hc : isPySpace c = false)
    (t : List Char) : ∃ u, pyStrip (c :: t) = c :: u := by
  unfold pyStrip
  rw [List.dropWhile_cons]
  simp only [hc, Bool.false_eq_true, if_false]
  have key : ∀ xs : List Char, ∃ u, List.dropWhile isPySpace (xs ++ [c]) = u ++ [c] := by
    intro xs
    induction xs with
    | nil => exact ⟨[], by simp [List.dropWhile, hc]⟩
    | cons a as ih =>
        by_cases ha : isPySpace a
        · obtain ⟨u, hu⟩ := ih
          refine ⟨u, ?_⟩
          rw [List.cons_append, List.dropWhile_cons]
          simp [ha, hu]
        · refine ⟨a :: as, ?_⟩
          rw [List.cons_append, List.dropWhile_cons]
          simp [ha]
  obtain ⟨u, hu⟩ := key t.reverse
  refine ⟨u.reverse, ?_⟩
  rw [List.reverse_cons, hu, List.reverse_append]
  simp

/-- A heading line is not classified by any of the earlier guards of the
cascade: it is not a fence, blockquote, table or horizontal-rule line. -/
theorem headingLine_guards (l : List Char) (h : headingLine l = true) :
    fenceLine l = false ∧ quoteLine l = false ∧ tableLine l = false ∧
    hruleLine l = false := by
  obtain ⟨t, rfl⟩ : ∃ t, l = '#' :: t := by
    cases l with
    | nil => simp [headingLine, toL, List.isPrefixOf] at h
    | cons c t =>
        refine ⟨t, ?_⟩
        simp [headingLine, toL, List.isPrefixOf] at h
        rw [← h]
  obtain ⟨u, hu⟩ := pyStrip_cons_of_not_space '#' (by decide) t
  refine ⟨?_, ?_, ?_, ?_⟩
  · simp [fenceLine, hu, toL, List.isPrefixOf]
  · simp [quoteLine, toL, List.isPrefixOf]
  · simp [tableLine, hu, toL, List.isPrefixOf]
  · simp [hruleLine, hu]

/-- C1: parse_dialogue is a total function from text to an ordered list of
speaker-text pairs (totality is inherent in the definition, which is a
structurally terminating fold over the lines); moreover, when no line of
the document satisfies a speaker marker condition, no utterance is found
and the result is the empty sequence. -/
theorem C1_parse_dialogue_no_marker (md : List Char)
    (h : ∀ l ∈ pySplitlines md, interviewerTrigger l = false ∧ candidateTrigger l = false) :
    parse_dialogue md = [] := by
  have step : ∀ (st : ParseState) (l : List Char),
      interviewerTrigger l = false → candidateTrigger l = false →
      st.segments = [] → st.current_speaker = none →
      (processLine st l).segments = [] ∧ (processLine st l).current_speaker = none := by
    intro st l hi hc hs hsp
    simp only [processLine, hi, hc, Bool.false_eq_true, if_false]
    split_ifs <;> simp_all [flush]
  have fold : ∀ (lines : List (List Char)) (st : ParseState),
      (∀ l ∈ lines, interviewerTrigger l = false ∧ candidateTrigger l = false) →
      st.segments = [] → st.current_speaker = none →
      (List.foldl processLine st lines).segments = [] ∧
      (List.foldl processLine st lines).current_speaker = none := by
    intro lines
    induction lines with
    | nil => intro st _ hs hsp; exact ⟨hs, hsp⟩
    | cons l ls ih =>
        intro st hall hs hsp
        have hl := hall l (List.mem_cons_self l ls)
        have h2 := step st l hl.1 hl.2 hs hsp
        rw [List.foldl_cons]
        exact ih (processLine st l) (fun x hx => hall x (List.mem_cons_of_mem l hx)) h2.1 h2.2
  obtain ⟨h1, h2⟩ := fold (pySplitlines md) initState h rfl rfl
  unfold parse_dialogue
  simp [flush, h1, h2]

/-- Witness for C1: a concrete document with a heading, plain text and a
list item, but no speaker marker, parses to the empty sequence. -/
theorem C1_witness :
    (∀ l ∈ pySplitlines (toL "# Title\nplain text\n- item"),
        interviewerTrigger l = false ∧ candidateTrigger l = false) ∧
    parse_dialogue (toL "# Title\nplain text\n- item") = [] :=
  ⟨by decide, C1_parse_dialogue_no_marker _ (by decide)⟩

/-- C2: the document consisting of an interviewer line, a blank line and a
candidate line parses to exactly the two expected utterances in order. -/
theorem C2_two_line_dialogue :
    parse_dialogue (toL "🎤 **Interviewer:** Hello there.\n\n👨‍💻 **Candidate:** Hi!") =
      [(Speaker.interviewer, toL "Hello there."), (Speaker.candidate, toL "Hi!")] := by
  decide

/-- C3: counterexample to the claim that either candidate glyph receives
the same prefix-stripping: a line marked with the adult glyph keeps the
whole line (marker and bolded label included, with the bold stars removed
by clean_text) as its utterance text, instead of the remainder after the
label. -/
theorem C3_counterexample :
    parse_dialogue (toL "🧑 **Candidate:** Hi") =
      [(Speaker.candidate, toL "🧑 Candidate: Hi")] ∧
    parse_dialogue (toL "🧑 **Candidate:** Hi") ≠
      [(Speaker.candidate, toL "Hi")] := by
  decide

/-- C3 (amended): a line reaching the speaker rules (not a fence, quote,
table, rule or heading line, not inside a code block, and not an
interviewer line) that satisfies the candidate condition - either glyph
with the word Candidate or the phrase Staff Engineer - flushes the
current utterance, sets the active speaker to candidate, and takes as
first fragment the stripped result of the label substitution; that
substitution is anchored on the man glyph only, so a line without the
man glyph is left whole. -/
theorem C3_amended_candidate_line :
    (∀ (st : ParseState) (l : List Char),
        st.in_code_block = false → fenceLine l = false → quoteLine l = false →
        tableLine l = false → hruleLine l = false → headingLine l = false →
        interviewerTrigger l = false → candidateTrigger l = true →
        processLine st l =
          { flush st with
            current_speaker := some Speaker.candidate
            current_lines :=
              if pyStrip (subCandidateLabel l) ≠ [] then [pyStrip (subCandidateLabel l)]
              else [] }) ∧
    (∀ l : List Char, l.contains manChar = false → subCandidateLabel l = l) := by
  constructor
  · intro st l hin hf hq ht hh hhead hi hc
    simp only [processLine, hin, hf, hq, ht, hh, hhead, hi, hc,
      Bool.false_eq_true, if_false, if_true]
  · intro l hl
    have key : ∀ s : List Char, s.contains manChar = false →
        lastMatch candidateTail s = none := by
      intro s
      induction s with
      | nil => intro _; rfl
      | cons c rest ih =>
          intro hs
          have hs2 : ¬ manChar = c ∧ manChar ∉ rest := by
            simpa [List.contains_cons] using hs
          have hcne : c ≠ manChar := fun hcc => hs2.1 hcc.symm
          have hrest : rest.contains manChar = false := by
            cases hcm : rest.contains manChar with
            | false => rfl
            | true => exact absurd (by simpa using hcm) hs2.2
          unfold lastMatch
          rw [ih hrest]
          simp only [candidateTail, hcne, Bool.false_eq_true, if_false]
    unfold subCandidateLabel
    rw [key l hl]

/-- Witness for C3 (amended): a man-glyph candidate line is stripped to
its trailing text, and a line without the man glyph passes the label
substitution unchanged. -/
theorem C3_amended_witness :
    processLine initState (toL "👨 **Candidate:** Hi") =
      { flush initState with
        current_speaker := some Speaker.candidate
        current_lines := [toL "Hi"] } ∧
    subCandidateLabel (toL "plain text") = toL "plain text" :=
  ⟨(C3_amended_candidate_line.1 initState (toL "👨 **Candidate:** Hi") rfl
      (by decide) (by decide) (by decide) (by decide) (by decide) (by decide)
      (by decide)).trans (by decide),
   C3_amended_candidate_line.2 (toL "plain text") (by decide)⟩

/-- C4: counterexample to the claim that clean_text contains a
list-marker-stripping step: a text with a leading bullet marker passes
clean_text unchanged, whereas a marker-stripping step would have removed
the dash. -/
theorem C4_counterexample :
    clean_text (toL "- hello") = toL "- hello" ∧
    toL "- hello" ≠ toL "hello" := by
  decide

/-- C4 (amended): leading list markers are not stripped inside
clean_text; they are stripped per continuation line by strip_list_marker
in the parser, applied to the trimmed line before the fragment is
accumulated, while clean_text proceeds from link collapsing directly to
underscore collapsing (its steps are exactly triple, double and single
emphasis, code spans, links, underscore emphasis, quote replacement and
whitespace collapsing, followed by a strip). -/
theorem C4_amended_marker_strip_location :
    (∀ (st : ParseState) (l : List Char) (sp : Speaker),
        st.in_code_block = false → fenceLine l = false → quoteLine l = false →
        tableLine l = false → hruleLine l = false → headingLine l = false →
        interviewerTrigger l = false → candidateTrigger l = false →
        st.current_speaker = some sp → strip_list_marker (pyStrip l) ≠ [] →
        processLine st l =
          { st with current_lines := st.current_lines ++ [strip_list_marker (pyStrip l)] }) ∧
    (∀ text : List Char,
        clean_text text =
          pyStrip (collapseWs (replaceChar (Char.ofNat 0x2019) (Char.ofNat 39)
            (replaceChar (Char.ofNat 0x2018) (Char.ofNat 39)
              (replaceChar (Char.ofNat 0x201D) '"'
                (replaceChar (Char.ofNat 0x201C) '"'
                  (subDelim (toL "_")
                    (subLink (subCode (subDelim (toL "*")
                      (subDelim (toL "**") (subDelim (toL "***") text)))))))))))) := by
  constructor
  · intro st l sp hin hf hq ht hh hhead hi hc hsp hne
    simp only [processLine, hin, hf, hq, ht, hh, hhead, hi, hc, hsp,
      Bool.false_eq_true, if_false, Option.isSome_some, if_true, hne, ne_eq,
      not_false_eq_true]
  · intro text
    rfl

/-- Witness for C4 (amended): with an active candidate speaker, the
continuation line consisting of a bullet item is accumulated with its
marker stripped. -/
theorem C4_amended_witness :
    processLine
      { segments := [], current_speaker := some Speaker.candidate,
        current_lines := [toL "A."], in_code_block := false } (toL "- item") =
      { segments := [], current_speaker := some Speaker.candidate,
        current_lines := [toL "A.", toL "item"], in_code_block := false } :=
  (C4_amended_marker_strip_location.1
      { segments := [], current_speaker := some Speaker.candidate,
        current_lines := [toL "A."], in_code_block := false }
      (toL "- item") Speaker.candidate rfl (by decide) (by decide) (by decide)
      (by decide) (by decide) (by decide) (by decide) rfl (by decide)).trans
    (by decide)

/-- The joining rule stated by the specification: append each fragment
with a single space after terminal punctuation and with a synthesized
sentence break otherwise. -/
def claimedJoinStep (r x : List Char) : List Char :=
  if endsPunct r then r ++ ' ' :: x else r ++ '.' :: ' ' :: x

/-- C5: on a non-empty list of (non-empty) fragments, join_lines starts
with the first fragment verbatim and appends every further fragment with
a single space when the text so far ends in terminal punctuation and
with a period and a space otherwise. -/
theorem C5_join_rule (f : List Char) (fs : List (List Char))
    (h : ∀ x ∈ f :: fs, x ≠ []) :
    join_lines (f :: fs) = fs.foldl claimedJoinStep f ∧
    f <+: join_lines (f :: fs) := by
  have hf : f ≠ [] := h f (List.mem_cons_self f fs)
  have key : ∀ (gs : List (List Char)) (acc : List Char), acc ≠ [] →
      gs.foldl
        (fun result line =>
          if result = [] then line
          else if endsPunct result then result ++ ' ' :: line
          else result ++ '.' :: ' ' :: line) acc =
        gs.foldl claimedJoinStep acc ∧
      acc <+: gs.foldl claimedJoinStep acc := by
    intro gs
    induction gs with
    | nil => intro acc hacc; exact ⟨rfl, List.prefix_rfl⟩
    | cons g gs ih =>
        intro acc hacc
        have hstep :
            (if acc = [] then g
             else if endsPunct acc then acc ++ ' ' :: g
             else acc ++ '.' :: ' ' :: g) = claimedJoinStep acc g := by
          rw [if_neg hacc]
          rfl
        have hne : claimedJoinStep acc g ≠ [] := by
          unfold claimedJoinStep
          split <;> simp
        constructor
        · rw [List.foldl_cons, List.foldl_cons, hstep]
          exact (ih (claimedJoinStep acc g) hne).1
        · rw [List.foldl_cons]
          refine List.IsPrefix.trans ?_ (ih (claimedJoinStep acc g) hne).2
          unfold claimedJoinStep
          split <;> exact List.prefix_append _ _
  have hjoin : join_lines (f :: fs) =
      fs.foldl
        (fun result line =>
          if result = [] then line
          else if endsPunct result then result ++ ' ' :: line
          else result ++ '.' :: ' ' :: line) f := by
    unfold join_lines
    rw [List.foldl_cons]
    rfl
  obtain ⟨h1, h2⟩ := key fs f hf
  refine ⟨hjoin.trans h1, ?_⟩
  rw [hjoin, h1]
  exact h2

/-- Witness for C5 on a concrete pair of fragments, exercising both the
punctuation branch and the sentence-break branch. -/
theorem C5_witness :
    (∀ x ∈ [toL "Hello.", toL "world", toL "x"], x ≠ []) ∧
    (join_lines [toL "Hello.", toL "world", toL "x"] =
        [toL "world", toL "x"].foldl claimedJoinStep (toL "Hello.") ∧
      toL "Hello." <+: join_lines [toL "Hello.", toL "world", toL "x"]) :=
  ⟨by decide, C5_join_rule (toL "Hello.") [toL "world", toL "x"] (by decide)⟩

/-- C6: assembling the two clips A and B with the 600 millisecond pause
at the Kokoro sample rate yields the buffer A, silence, B, silence, whose
length is the length of A plus the pause samples plus the length of B
plus the pause samples - the trailing silence after the last clip
included. -/
theorem C6_assemble_two_clips {α : Type} (z : α) (A B : List α) :
    kokoroCombine [A, B] (silenceBuffer z (silenceSamples KOKORO_SAMPLE_RATE 600)) =
      some (A ++ silenceBuffer z (silenceSamples KOKORO_SAMPLE_RATE 600) ++
            (B ++ silenceBuffer z (silenceSamples KOKORO_SAMPLE_RATE 600))) ∧
    (A ++ silenceBuffer z (silenceSamples KOKORO_SAMPLE_RATE 600) ++
      (B ++ silenceBuffer z (silenceSamples KOKORO_SAMPLE_RATE 600))).length =
      A.length + silenceSamples KOKORO_SAMPLE_RATE 600 +
        (B.length + silenceSamples KOKORO_SAMPLE_RATE 600) := by
  constructor
  · simp [kokoroCombine, kokoroAssemble, npConcatenate, kokoroClipList]
  · simp [silenceBuffer]
    omega

/-- C7: counterexample to the claim that assembling an empty clip
sequence produces an empty output buffer: the Kokoro combination stage
refuses an empty clip list (the script prints an error and exits), so no
buffer at all - in particular not the empty one - is produced. -/
theorem C7_counterexample :
    kokoroCombine ([] : List (List Int))
        (silenceBuffer (0 : Int) (silenceSamples KOKORO_SAMPLE_RATE 600)) = none ∧
    kokoroCombine ([] : List (List Int))
        (silenceBuffer (0 : Int) (silenceSamples KOKORO_SAMPLE_RATE 600)) ≠
      some [] := by
  exact ⟨rfl, by simp [kokoroCombine]⟩

/-- C7 (amended): an empty clip sequence is rejected before assembly -
the combination stage produces no output buffer for it (the script
reports that no audio clips were generated and exits; the underlying
numpy concatenation would itself reject an empty list of arrays). -/
theorem C7_amended_empty_rejected {α : Type} (silence : List α) :
    kokoroCombine ([] : List (List α)) silence = none := rfl

/-- C8: fence lines toggle the code-block flag and contribute nothing;
every non-fence line is ignored while the flag is set; a balanced fenced
block leaves the parser state exactly as it was, so its content reaches
no utterance; and with the flag set (as after an odd number of fence
lines) every remaining non-fence line of the document is ignored. -/
theorem C8_fence_invariants :
    (∀ (st : ParseState) (l : List Char), fenceLine l = true →
        processLine st l = { st with in_code_block := !st.in_code_block }) ∧
    (∀ (st : ParseState) (l : List Char), st.in_code_block = true →
        fenceLine l = false → processLine st l = st) ∧
    (∀ (st : ParseState) (fl : List Char) (body : List (List Char)),
        fenceLine fl = true → (∀ b ∈ body, fenceLine b = false) →
        st.in_code_block = false →
        List.foldl processLine st (fl :: (body ++ [fl])) = st) ∧
    (∀ (st : ParseState) (rest : List (List Char)), st.in_code_block = true →
        (∀ l ∈ rest, fenceLine l = false) →
        List.foldl processLine st rest = st) := by
  have p1 : ∀ (st : ParseState) (l : List Char), fenceLine l = true →
      processLine st l = { st with in_code_block := !st.in_code_block } := by
    intro st l h
    simp only [processLine, h, if_true]
  have p2 : ∀ (st : ParseState) (l : List Char), st.in_code_block = true →
      fenceLine l = false → processLine st l = st := by
    intro st l hin hf
    simp only [processLine, hf, hin, Bool.false_eq_true, if_false, if_true]
  have p4 : ∀ (st : ParseState) (rest : List (List Char)), st.in_code_block = true →
      (∀ l ∈ rest, fenceLine l = false) →
      List.foldl processLine st rest = st := by
    intro st rest
    induction rest generalizing st with
    | nil => intro _ _; rfl
    | cons l ls ih =>
        intro hin hall
        rw [List.foldl_cons, p2 st l hin (hall l (List.mem_cons_self l ls))]
        exact ih st hin (fun x hx => hall x (List.mem_cons_of_mem l hx))
  refine ⟨p1, p2, ?_, p4⟩
  intro st fl body hfl hbody hin
  rw [List.foldl_cons, p1 st fl hfl, List.foldl_append]
  have hmid : List.foldl processLine { st with in_code_block := !st.in_code_block } body =
      { st with in_code_block := !st.in_code_block } := by
    refine p4 _ body ?_ hbody
    simp [hin]
  rw [hmid, List.foldl_cons, p1 _ fl hfl]
  cases st with
  | mk segs sp lines inb =>
      simp at hin
      simp [hin]

/-- Witness for C8: a fence line toggles the flag of the initial state; a
marker line between two fences is ignored, the balanced block restoring
the initial state exactly. -/
theorem C8_witness :
    fenceLine (toL "```python") = true ∧
    processLine initState (toL "```python") = { initState with in_code_block := true } ∧
    List.foldl processLine initState
      [toL "```", toL "🎤 **Interviewer:** secret", toL "```"] = initState :=
  ⟨by decide,
   (C8_fence_invariants.1 initState (toL "```python") (by decide)).trans (by decide),
   C8_fence_invariants.2.2.1 initState (toL "```")
     [toL "🎤 **Interviewer:** secret"] (by decide) (by decide) rfl⟩

/-- C9: outside a code block, a heading line flushes the in-progress
utterance and resets the parser (the heading text is discarded, the
active speaker cleared); consequently a heading between two turns of the
same speaker yields two separate utterances, not one merged utterance. -/
theorem C9_heading_flush :
    (∀ (st : ParseState) (l : List Char), st.in_code_block = false →
        headingLine l = true → processLine st l = flush st) ∧
    (parse_dialogue (toL "🎤 **Interviewer:** A.\n## Section\n🎤 **Interviewer:** B.") =
        [(Speaker.interviewer, toL "A."), (Speaker.interviewer, toL "B.")] ∧
      parse_dialogue (toL "🎤 **Interviewer:** A.\n## Section\n🎤 **Interviewer:** B.") ≠
        [(Speaker.interviewer, toL "A. B.")]) := by
  constructor
  · intro st l hin hh
    obtain ⟨hf, hq, ht, hr⟩ := headingLine_guards l hh
    simp only [processLine, hin, hf, hq, ht, hr, hh, Bool.false_eq_true,
      if_false, if_true]
  · constructor
    · decide
    · decide

/-- Witness for C9: applied to the initial state and a concrete section
heading. -/
theorem C9_witness :
    initState.in_code_block = false ∧ headingLine (toL "## Section") = true ∧
    processLine initState (toL "## Section") = flush initState :=
  ⟨rfl, by decide, C9_heading_flush.1 initState (toL "## Section") rfl (by decide)⟩

/-- C10: counterexample to the claim that the Kokoro and ElevenLabs
assemblies agree on every list of clips: on the empty list the Kokoro
combination (np.concatenate) produces no sample sequence, while the
ElevenLabs fold produces the empty one. -/
theorem C10_counterexample :
    kokoroAssemble ([] : List (List Int)) [0] = none ∧
    elevenlabsAssemble ([] : List (List Int)) [0] = [] ∧
    kokoroAssemble ([] : List (List Int)) [0] ≠
      some (elevenlabsAssemble ([] : List (List Int)) [0]) := by
  refine ⟨rfl, rfl, ?_⟩
  simp [kokoroAssemble, npConcatenate, kokoroClipList]

/-- C10 (amended): on every non-empty list of clips the two assemblies
produce the same abstract sample sequence, the concatenation of each
clip followed by the silence buffer. -/
theorem C10_amended_assemblies_agree {α : Type} (clips : List (List α))
    (silence : List α) (h : clips ≠ []) :
    kokoroAssemble clips silence = some (elevenlabsAssemble clips silence) := by
  have flat : ∀ (cs : List (List α)) (acc : List α),
      cs.foldl (fun combined clip => combined ++ (clip ++ silence)) acc =
        acc ++ (kokoroClipList cs silence).flatten := by
    intro cs
    induction cs with
    | nil => intro acc; simp [kokoroClipList]
    | cons c cs ih =>
        intro acc
        rw [List.foldl_cons, ih]
        simp [kokoroClipList]
  obtain ⟨c, cs, rfl⟩ : ∃ c cs, clips = c :: cs := by
    cases clips with
    | nil => exact absurd rfl h
    | cons c cs => exact ⟨c, cs, rfl⟩
  unfold elevenlabsAssemble
  rw [flat]
  simp [kokoroAssemble, npConcatenate, kokoroClipList]

/-- Witness for C10 (amended) on two concrete clips. -/
theorem C10_amended_witness :
    ([[1], [2, 3]] : List (List Int)) ≠ [] ∧
    kokoroAssemble ([[1], [2, 3]] : List (List Int)) [0] =
      some (elevenlabsAssemble ([[1], [2, 3]] : List (List Int)) [0]) :=
  ⟨by decide, C10_amended_assemblies_agree [[1], [2, 3]] [0] (by decide)⟩
